import Mathlib

/-!
Verification development for the image-server-canvas repository (TypeScript,
Cloudflare-Workers greeting-image generator).

The development shallowly embeds the parts of the source that the claims
C1-C10 are about:

* `src/utils/helpers.ts`  : `getGradientStops`, `validateDimensions`
* `src/handlers/image.ts` : `adjustBrightness`
* `src/services/svg-image-generator.ts` : the `SVGImageGenerator` class
  (`setBackground`, `setGradientBackground`, `drawText`, `drawCircle`,
  `drawRectangle`, `addDropShadowFilter`, `escapeXml`, `generateSVG`)
* `src/services/github.ts` : `GitHubService.getUserInfo` and its TTL cache
* `src/handlers/github.ts` : `generateGitHubImage`, `handleGitHubEndpoint`
* `src/utils/performance.ts` : `createOptimizedResponse`

JavaScript numbers are IEEE-754 binary64 values.  `getGradientStops` and the
gradient-stop offsets of `setGradientBackground` genuinely depend on binary64
rounding, so the embedding models binary64 exactly: every finite double is a
dyadic rational `m * 2 ^ e` with `|m| = 0` or `2^52 ≤ |m| < 2^53`, and every
arithmetic operation is "compute the exact rational, then round to nearest,
ties to even".  Overflow to infinity and subnormal underflow are outside the
exponent ranges exercised by the repository's arithmetic (all values lie well
inside the normal range), so the finite-value model needs no exponent bounds;
the special values NaN, +Infinity and -Infinity are modelled by the `JsNum`
wrapper.  JavaScript's `-0` is identified with `0` (the two are `===`-equal
and print identically, and nothing in the repository distinguishes them).
-/

set_option maxRecDepth 100000
set_option linter.unusedVariables false

namespace ImageServer

/-! ## Exact binary64 arithmetic -/

/-- Fuelled helper for the binary length of a natural number; the fuel only
has to exceed the number of binary digits. -/
def bitlenAux : Nat → Nat → Nat
  | 0, _ => 0
  | fuel + 1, n => if n = 0 then 0 else bitlenAux fuel (n / 2) + 1

/-- Number of binary digits of `n` (0 for 0); `n` itself is always enough
fuel since `n < 2 ^ n`. -/
def bitlen (n : Nat) : Nat := bitlenAux n n

/-- A finite binary64 value, represented exactly as `m * 2 ^ e`.  The values
produced by `fl` are canonical: either `m = 0 ∧ e = 0`, or `2^52 ≤ |m| < 2^53`,
so structural equality coincides with value equality, exactly as `===` on
non-NaN doubles. -/
structure D where
  m : Int
  e : Int
deriving DecidableEq, Repr

/-- The double 0. -/
def dZero : D := ⟨0, 0⟩

/-- The double 1 in canonical form. -/
def dOne : D := ⟨2 ^ 52, -52⟩

/-- Round the exact rational `num / den` (with `den ≠ 0`) to the nearest
integer, ties to even. -/
def roundEven (num den : Nat) : Nat :=
  let q := num / den
  let r := num % den
  if 2 * r < den then q
  else if den < 2 * r then q + 1
  else if q % 2 = 0 then q else q + 1

/-- Round the positive rational `a / b` (`a, b ≥ 1`) to the nearest binary64
value (round to nearest, ties to even): pick the exponent `f` with
`2 ^ f ≤ a / b < 2 ^ (f+1)`, round the 53-bit significand, and renormalise if
rounding carried up to `2^53`. -/
def flPos (a b : Nat) : D :=
  let la : Int := bitlen a
  let lb : Int := bitlen b
  let d : Int := la - lb
  let f : Int :=
    if 0 ≤ d then (if b * 2 ^ d.toNat ≤ a then d else d - 1)
    else (if b ≤ a * 2 ^ (-d).toNat then d else d - 1)
  let s : Int := 52 - f
  let m0 : Nat :=
    if 0 ≤ s then roundEven (a * 2 ^ s.toNat) b
    else roundEven a (b * 2 ^ (-s).toNat)
  if m0 = 2 ^ 53 then ⟨2 ^ 52, f - 51⟩ else ⟨m0, f - 52⟩

/-- Round the exact rational `num / den` to the nearest binary64 value.
`den = 0` cannot be reached from the `JsNum` layer (division guards it) and
is mapped to 0 merely for totality. -/
def fl (num : Int) (den : Nat) : D :=
  if num = 0 ∨ den = 0 then dZero
  else if num < 0 then
    let p := flPos num.natAbs den
    ⟨-p.m, p.e⟩
  else flPos num.toNat den

/-- The exact value of a finite double as a fraction with positive
denominator. -/
def dPair (x : D) : Int × Nat :=
  if 0 ≤ x.e then (x.m * (2 ^ x.e.toNat : Nat), 1) else (x.m, 2 ^ (-x.e).toNat)

/-- Binary64 addition: exact rational sum, then correct rounding. -/
def dAdd (x y : D) : D :=
  let p := dPair x
  let q := dPair y
  fl (p.1 * q.2 + q.1 * p.2) (p.2 * q.2)

/-- Binary64 negation (exact). -/
def dNeg (x : D) : D := ⟨-x.m, x.e⟩

/-- Binary64 multiplication: exact rational product, then correct rounding. -/
def dMulD (x y : D) : D :=
  let p := dPair x
  let q := dPair y
  fl (p.1 * q.1) (p.2 * q.2)

/-- Binary64 division (finite, nonzero divisor): exact rational quotient,
then correct rounding. -/
def dDivD (x y : D) : D :=
  let p := dPair x
  let q := dPair y
  let n : Int := if q.1 < 0 then -(p.1 * q.2) else p.1 * q.2
  fl n (p.2 * q.1.natAbs)

/-- Exact order comparison of finite doubles. -/
def dLt (x y : D) : Bool :=
  let p := dPair x
  let q := dPair y
  p.1 * q.2 < q.1 * p.2

/-- A JavaScript number: NaN, the two infinities, or a finite binary64
value. -/
inductive JsNum where
  | nan
  | inf
  | ninf
  | fin (d : D)
deriving DecidableEq, Repr

/-- JavaScript `+` on numbers (IEEE-754 addition). -/
def jsAdd : JsNum → JsNum → JsNum
  | .nan, _ => .nan
  | _, .nan => .nan
  | .inf, .ninf => .nan
  | .ninf, .inf => .nan
  | .inf, _ => .inf
  | _, .inf => .inf
  | .ninf, _ => .ninf
  | _, .ninf => .ninf
  | .fin a, .fin b => .fin (dAdd a b)

/-- JavaScript unary `-` on numbers. -/
def jsNeg : JsNum → JsNum
  | .nan => .nan
  | .inf => .ninf
  | .ninf => .inf
  | .fin a => .fin (dNeg a)

/-- JavaScript `-` on numbers. -/
def jsSub (x y : JsNum) : JsNum := jsAdd x (jsNeg y)

/-- JavaScript `*` on numbers (IEEE-754 multiplication). -/
def jsMul : JsNum → JsNum → JsNum
  | .nan, _ => .nan
  | _, .nan => .nan
  | .inf, .inf => .inf
  | .inf, .ninf => .ninf
  | .ninf, .inf => .ninf
  | .ninf, .ninf => .inf
  | .inf, .fin b => if b = dZero then .nan else if b.m < 0 then .ninf else .inf
  | .fin a, .inf => if a = dZero then .nan else if a.m < 0 then .ninf else .inf
  | .ninf, .fin b => if b = dZero then .nan else if b.m < 0 then .inf else .ninf
  | .fin a, .ninf => if a = dZero then .nan else if a.m < 0 then .inf else .ninf
  | .fin a, .fin b => .fin (dMulD a b)

/-- JavaScript `/` on numbers (IEEE-754 division); in particular `0/0 = NaN`
and `x/0 = ±Infinity` for `x ≠ 0`. -/
def jsDiv : JsNum → JsNum → JsNum
  | .nan, _ => .nan
  | _, .nan => .nan
  | .inf, .inf => .nan
  | .inf, .ninf => .nan
  | .ninf, .inf => .nan
  | .ninf, .ninf => .nan
  | .inf, .fin b => if b.m < 0 then .ninf else .inf
  | .ninf, .fin b => if b.m < 0 then .inf else .ninf
  | .fin _, .inf => .fin dZero
  | .fin _, .ninf => .fin dZero
  | .fin a, .fin b =>
      if b = dZero then
        if a = dZero then .nan else if a.m < 0 then .ninf else .inf
      else .fin (dDivD a b)

/-- JavaScript `<` on numbers; any comparison with NaN is false. -/
def jsLt : JsNum → JsNum → Bool
  | .nan, _ => false
  | _, .nan => false
  | .inf, .inf => false
  | .ninf, .ninf => false
  | .ninf, _ => true
  | _, .inf => true
  | .inf, _ => false
  | _, .ninf => false
  | .fin a, .fin b => dLt a b

/-- The double denoted by a (small) integer literal. -/
def jsOfNat (n : Nat) : JsNum := .fin (fl n 1)

/-- The double denoted by an integer-valued expression. -/
def jsOfInt (i : Int) : JsNum := .fin (fl i 1)

/-! ## `getGradientStops` (src/utils/helpers.ts, lines 30-45)

```ts
export function getGradientStops(stops: number): Record<number, string> {
  const gStop: Record<number, string> = {};
  const stopInc = parseFloat((1 / stops).toFixed(1));
  let initStop = 0;
  while (initStop < 1) {
    gStop[initStop] = getRandomColor();
    initStop += stopInc;
  }
  if (initStop !== 1) {
    gStop[1] = getRandomColor();
  }
  return gStop;
}
```

Distinct doubles have distinct string representations, hence index distinct
keys of the record, and the loop offsets are strictly increasing and `< 1`,
so the record is faithfully modelled by the ordered list of its numeric keys
(insertion order).  The value stored at each key is an independently random
colour from `getRandomColor` and is irrelevant to every claim, so the model
tracks the keys only.  The unbounded `while` loop is modelled with explicit
fuel; `none` means the loop has not terminated within the given fuel, and
divergence is expressed as returning `none` for every fuel. -/

/-- `(x).toFixed(1)` for a finite double, as the integer `n` of tenths: the
ECMAScript spec picks the integer `n` minimising `|n / 10 - x|`, ties towards
the larger `n`, i.e. `n = ⌊10x + 1/2⌋`. -/
def jsToFixed1Int (x : D) : Int :=
  let p := dPair x
  Int.fdiv (20 * p.1 + p.2) (2 * p.2)

/-- `parseFloat((y).toFixed(1))` for a number `y`: `"NaN"`, `"Infinity"` and
`"-Infinity"` parse back to themselves, and the decimal string `n/10` parses
to the nearest double of `n/10`. -/
def jsParseFloatOfToFixed1 : JsNum → JsNum
  | .nan => .nan
  | .inf => .inf
  | .ninf => .ninf
  | .fin x => .fin (fl (jsToFixed1Int x) 10)

/-- `parseFloat((1 / stops).toFixed(1))` from the source, for an integer
`stops` count. -/
def stopInc (stops : Nat) : JsNum :=
  jsParseFloatOfToFixed1 (jsDiv (jsOfNat 1) (jsOfNat stops))

/-- The `while (initStop < 1)` loop of `getGradientStops`: accumulates the
keys written so far and returns them with the final value of `initStop`;
`none` when the fuel is exhausted before the loop exits. -/
def gsLoop (inc : JsNum) : Nat → JsNum → List JsNum → Option (List JsNum × JsNum)
  | 0, _, _ => none
  | fuel + 1, cur, acc =>
      if jsLt cur (jsOfNat 1) then gsLoop inc fuel (jsAdd cur inc) (acc ++ [cur])
      else some (acc, cur)

/-- `getGradientStops`, as the ordered list of numeric keys of the returned
record (see the section comment); `none` when the loop exceeds the fuel. -/
def getGradientStops (stops : Nat) (fuel : Nat) : Option (List JsNum) :=
  match gsLoop (stopInc stops) fuel (jsOfNat 0) [] with
  | none => none
  | some (acc, final) =>
      some (if final = jsOfNat 1 then acc else acc ++ [jsOfNat 1])

/-- The property claim C1 asserts of a stop count `n`: the loop terminates,
the first stop is at offset 0, and offset 1 occurs exactly once. -/
def gradientStopsClaimAt (n : Nat) : Prop :=
  (∃ fuel l, getGradientStops n fuel = some l) ∧
  ∀ fuel l, getGradientStops n fuel = some l →
    l.head? = some (jsOfNat 0) ∧ l.count (jsOfNat 1) = 1

/-! ## XML escaping (svg-image-generator.ts, lines 196-203)

```ts
private escapeXml(text: string): string {
  return text
    .replace(/&/g, '&amp;')
    .replace(/</g, '&lt;')
    .replace(/>/g, '&gt;')
    .replace(/"/g, '&quot;')
    .replace(/'/g, '&#39;');
}
```

Strings are worked with as their lists of characters.  The double-quote and
apostrophe characters are written via their code points 34 and 39. -/

/-- The character `"` (code point 34). -/
def quotChar : Char := Char.ofNat 34

/-- The apostrophe character (code point 39). -/
def aposChar : Char := Char.ofNat 39

/-- JavaScript `String.prototype.replace` with a global single-character
pattern: every occurrence of `c` is replaced by `rep`. -/
def replaceAllChar (c : Char) (rep : List Char) : List Char → List Char
  | [] => []
  | a :: l => (if a = c then rep else [a]) ++ replaceAllChar c rep l

/-- `escapeXml` from the source: the five global replacements, ampersand
first. -/
def escapeXml (l : List Char) : List Char :=
  replaceAllChar aposChar ['&', '#', '3', '9', ';']
    (replaceAllChar quotChar ['&', 'q', 'u', 'o', 't', ';']
      (replaceAllChar '>' ['&', 'g', 't', ';']
        (replaceAllChar '<' ['&', 'l', 't', ';']
          (replaceAllChar '&' ['&', 'a', 'm', 'p', ';'] l))))

/-- Single-character view of the escaping: what one input character
contributes to the output of `escapeXml`. -/
def escChar (a : Char) : List Char :=
  if a = '&' then ['&', 'a', 'm', 'p', ';']
  else if a = '<' then ['&', 'l', 't', ';']
  else if a = '>' then ['&', 'g', 't', ';']
  else if a = quotChar then ['&', 'q', 'u', 'o', 't', ';']
  else if a = aposChar then ['&', '#', '3', '9', ';']
  else [a]

/-- A character list is well-escaped XML character data: it contains no
`<`, `>`, `"` or apostrophe at all, and every `&` begins one of the five
entities `&amp;` `&lt;` `&gt;` `&quot;` `&#39;`. -/
def wellEscaped : List Char → Bool
  | [] => true
  | c :: rest =>
      if c = '&' then
        match rest with
        | 'a' :: 'm' :: 'p' :: ';' :: r => wellEscaped r
        | 'l' :: 't' :: ';' :: r => wellEscaped r
        | 'g' :: 't' :: ';' :: r => wellEscaped r
        | 'q' :: 'u' :: 'o' :: 't' :: ';' :: r => wellEscaped r
        | '#' :: '3' :: '9' :: ';' :: r => wellEscaped r
        | _ => false
      else if c = '<' ∨ c = '>' ∨ c = quotChar ∨ c = aposChar then false
      else wellEscaped rest

/-! ## `adjustBrightness` (src/handlers/image.ts, lines 150-161)

```ts
function adjustBrightness(color: string, amount: number): string {
  if (color.startsWith('#')) {
    const hex = color.slice(1);
    const num = parseInt(hex, 16);
    const r = Math.max(0, Math.min(255, (num >> 16) + amount));
    const g = Math.max(0, Math.min(255, ((num >> 8) & 0x00FF) + amount));
    const b = Math.max(0, Math.min(255, (num & 0x0000FF) + amount));
    return `#$\x7b((r << 16) | (g << 8) | b).toString(16).padStart(6, '0')\x7d`;
  }
  return color;
}
```

`parseInt(hex, 16)` parses the longest prefix of hexadecimal digits
(case-insensitive) and yields NaN when that prefix is empty; the optional
whitespace/sign/`0x` prefixes of `parseInt` can never occur here, because the
argument is the tail of a string that was sliced after a leading `#`, and are
omitted.  When `num` is NaN every channel is NaN and the 32-bit coercion of
the bitwise operators turns every channel into 0, so the result is
`"#000000"`; that branch is modelled explicitly.  The shifts are modelled on
`Nat` (the signed 32-bit wrap-around of `>>` is unreachable for the 24-bit
values a six-digit colour produces). -/

/-- Hexadecimal digit test of `parseInt(_, 16)`: `0-9` (code points 48-57),
`a-f` (97-102), `A-F` (65-70). -/
def isHexDigitB (c : Char) : Bool :=
  (48 ≤ c.toNat && c.toNat ≤ 57) || (97 ≤ c.toNat && c.toNat ≤ 102) ||
    (65 ≤ c.toNat && c.toNat ≤ 70)

/-- Value of a hexadecimal digit. -/
def hexVal (c : Char) : Nat :=
  if 48 ≤ c.toNat ∧ c.toNat ≤ 57 then c.toNat - 48
  else if 97 ≤ c.toNat ∧ c.toNat ≤ 102 then c.toNat - 87
  else if 65 ≤ c.toNat ∧ c.toNat ≤ 70 then c.toNat - 55
  else 0

/-- `parseInt(l, 16)`: longest hexadecimal-digit prefix; `none` is NaN. -/
def jsParseIntHex (l : List Char) : Option Nat :=
  let ds := l.takeWhile isHexDigitB
  if ds.isEmpty then none
  else some (ds.foldl (fun a c => 16 * a + hexVal c) 0)

/-- The lowercase hexadecimal digit for `n < 16`, as produced by
`Number.prototype.toString(16)`. -/
def toHexDigit (n : Nat) : Char :=
  if n < 10 then Char.ofNat (48 + n) else Char.ofNat (87 + n)

/-- Fuelled helper for `toString(16)`; the fuel only has to exceed the
number of base-16 digits. -/
def hexRepAux : Nat → Nat → List Char → List Char
  | 0, _, acc => acc
  | fuel + 1, n, acc =>
      if n < 16 then toHexDigit n :: acc
      else hexRepAux fuel (n / 16) (toHexDigit (n % 16) :: acc)

/-- `(n).toString(16)` for a natural number: minimal lowercase hexadecimal
digits (`"0"` for 0); fuel `n + 1` always suffices. -/
def hexRep (n : Nat) : List Char := hexRepAux (n + 1) n []

/-- `String.prototype.padStart(k, c)`. -/
def padStart (k : Nat) (c : Char) (l : List Char) : List Char :=
  List.replicate (k - l.length) c ++ l

/-- `Math.max(0, Math.min(255, x))` for an integer `x`. -/
def clamp255 (x : Int) : Nat := (max 0 (min 255 x)).toNat

/-- `adjustBrightness` from the source (both copies, in
src/handlers/image.ts and src/handlers/github-simple.ts, are identical).
`startsWith('#')` is the test on the first character. -/
def adjustBrightness (color : String) (amount : Int) : String :=
  match color.data with
  | c :: hex =>
      if c = '#' then
        match jsParseIntHex hex with
        | some num =>
            let r := clamp255 (((num >>> 16 : Nat) : Int) + amount)
            let g := clamp255 ((((num >>> 8) &&& 255 : Nat) : Int) + amount)
            let b := clamp255 (((num &&& 255 : Nat) : Int) + amount)
            String.mk
              ('#' :: padStart 6 '0' (hexRep ((r <<< 16) ||| (g <<< 8) ||| b)))
        | none => String.mk ('#' :: padStart 6 '0' (hexRep 0))
      else color
  | [] => color

/-- A valid hex colour per the spec: `#` followed by six hexadecimal digits
(either case), the regex `^#[0-9A-Fa-f]{6}$`. -/
def isValidHexColor (s : String) : Bool :=
  match s.data with
  | c :: ds => c == '#' && ds.length == 6 && ds.all isHexDigitB
  | [] => false

/-- A lowercase hexadecimal digit: `0-9` or `a-f`. -/
def isLowerHexDigit (c : Char) : Bool :=
  (48 ≤ c.toNat && c.toNat ≤ 57) || (97 ≤ c.toNat && c.toNat ≤ 102)

/-- A `#`-prefixed colour with six lowercase hexadecimal digits. -/
def isLowerHexColor (s : String) : Bool :=
  match s.data with
  | c :: ds => c == '#' && ds.length == 6 && ds.all isLowerHexDigit
  | [] => false

/-- What claim C5 asserts: `adjustBrightness` with delta 0 is the identity
on every valid hex colour. -/
def adjustBrightnessClaim : Prop :=
  ∀ s, isValidHexColor s = true → adjustBrightness s 0 = s

/-- Fixed-width base-16 rendering: exactly `k` lowercase digits. -/
def toHexFixed : Nat → Nat → List Char
  | 0, _ => []
  | k + 1, n => toHexFixed k (n / 16) ++ [toHexDigit (n % 16)]

/-! ## `validateDimensions` (src/utils/helpers.ts, lines 63-68)

```ts
export function validateDimensions(width, height) {
  const w = Math.max(100, Math.min(2000, parseInt(String(width)) || 1200));
  const h = Math.max(100, Math.min(2000, parseInt(String(height)) || 630));
  return { w, h };
}
```

`parseInt(s)` (radix 10): optional whitespace, optional sign, then the
longest prefix of decimal digits; NaN (`none`) if that prefix is empty.
`x || default` replaces the two falsy numbers NaN and 0 by the default. -/

/-- Decimal digit test. -/
def isDigitB (c : Char) : Bool := '0' ≤ c && c ≤ '9'

/-- Longest prefix of decimal digits, as a number; `none` when empty. -/
def parseDigits (l : List Char) : Option Nat :=
  let ds := l.takeWhile isDigitB
  if ds.isEmpty then none
  else some (ds.foldl (fun a c => 10 * a + (c.toNat - 48)) 0)

/-- `parseInt(s)` with radix 10; `none` is NaN. -/
def jsParseInt10 (s : String) : Option Int :=
  let l := s.data.dropWhile (fun c => c = ' ' || c = '\t' || c = '\n' || c = '\r')
  match l with
  | '-' :: rest => (parseDigits rest).map (fun n => -(n : Int))
  | '+' :: rest => (parseDigits rest).map (fun n => (n : Int))
  | rest => (parseDigits rest).map (fun n => (n : Int))

/-- One dimension of `validateDimensions`: `parseInt || default`, clamped. -/
def validateDim (s : String) (dflt : Int) : Int :=
  let v : Int :=
    match jsParseInt10 s with
    | none => dflt
    | some k => if k = 0 then dflt else k
  max 100 (min 2000 v)

/-- `validateDimensions` from the source. -/
def validateDimensions (width height : String) : Int × Int :=
  (validateDim width 1200, validateDim height 630)

/-- What claim C7 asserts: every supplied numeric value is clamped into
[100, 2000]. -/
def validateDimensionsClaim : Prop :=
  ∀ ws hs wv hv, jsParseInt10 ws = some wv → jsParseInt10 hs = some hv →
    validateDimensions ws hs = (max 100 (min 2000 wv), max 100 (min 2000 hv))

/-! ## The `SVGImageGenerator` (src/services/svg-image-generator.ts)

The generator holds a width, a height and an ordered array `elements` of
markup strings; drawing methods `push` fragments onto the end, and the two
definition-registering methods (`setGradientBackground`,
`addDropShadowFilter`) `unshift` a `<defs>` block onto the front.
`generateSVG` joins `elements` in array order inside a fixed `<svg>`
wrapper whose width/height/viewBox come from the constructor.

Every fragment is string templating of its arguments, injectively: two
fragments built by the same method coincide iff their arguments do, and
fragments built by different methods never coincide (distinct tags).  The
embedding therefore represents a fragment by a constructor carrying the
data interpolated into the template, and represents the serialized document
by the `elements` list in array order; numeric attributes are carried as
the JavaScript numbers (`JsNum`) that would be interpolated.  The character
data of a `text` element is the (escaped) string actually embedded. -/

/-- Gradient direction (the source's default is `horizontal`). -/
inductive GradDir where
  | horizontal
  | vertical
deriving DecidableEq, Repr

/-- Options of `drawText`, with the defaults destructured in the source. -/
structure TextOptions where
  fontSize : JsNum
  fontFamily : String := "Arial, sans-serif"
  fontWeight : String := "normal"
  fill : String := "#000000"
  stroke : Option String := none
  strokeWidth : JsNum := jsOfNat 1
  textAnchor : String := "start"
  dominantBaseline : String := "auto"
  filter : Option String := none
deriving DecidableEq, Repr

/-- Options of `drawCircle`, with the source's defaults. -/
structure CircleOptions where
  fill : String := "#cccccc"
  stroke : Option String := none
  strokeWidth : JsNum := jsOfNat 1
deriving DecidableEq, Repr

/-- Options of `drawRectangle`, with the source's defaults. -/
structure RectOptions where
  fill : String := "#000000"
  stroke : Option String := none
  strokeWidth : JsNum := jsOfNat 1
  rx : JsNum := jsOfNat 0
deriving DecidableEq, Repr

/-- One entry of the generator's `elements` array, carrying the data its
template interpolates. -/
inductive Frag where
  | bgRect (color : String)
  | gradientDef (id : String) (x1 y1 x2 y2 : String) (stops : List (JsNum × String))
  | gradientRect (id : String)
  | text (x y : JsNum) (o : TextOptions) (content : List Char)
  | circle (cx cy r : JsNum) (o : CircleOptions)
  | rect (x y w h : JsNum) (o : RectOptions)
  | filterDef (id : String) (dx dy blur opacity : JsNum)
deriving DecidableEq, Repr

/-- A fragment is a `<defs>` block (these are the ones `unshift`ed). -/
def Frag.isDef : Frag → Bool
  | .gradientDef _ _ _ _ _ _ => true
  | .filterDef _ _ _ _ _ => true
  | _ => false

/-- The character data of a text fragment. -/
def Frag.textContent : Frag → Option (List Char)
  | .text _ _ _ content => some content
  | _ => none

/-- The state of an `SVGImageGenerator` instance. -/
structure SVGState where
  width : Int
  height : Int
  elements : List Frag
deriving DecidableEq, Repr

/-- `new SVGImageGenerator(width, height)`. -/
def SVGState.mkGen (w h : Int) : SVGState := ⟨w, h, []⟩

/-- `setBackground(color)`: pushes a full-canvas fill. -/
def setBackground (st : SVGState) (color : String) : SVGState :=
  { st with elements := st.elements ++ [.bgRect color] }

/-- The offset interpolated for the `index`-th `<stop>`:
`(index / (colors.length - 1)) * 100`, evaluated in JavaScript numbers —
NaN (`0/0`) when there is exactly one colour. -/
def gradOffset (index n : Nat) : JsNum :=
  jsMul (jsDiv (jsOfNat index) (jsOfNat n)) (jsOfNat 100)

/-- `colors.map((color, index) => stop(...))` of `setGradientBackground`:
the list of (offset, colour) pairs, `n` being `colors.length - 1`. -/
def gradStopsAux (n : Nat) : Nat → List String → List (JsNum × String)
  | _, [] => []
  | i, c :: rest => (gradOffset i n, c) :: gradStopsAux n (i + 1) rest

/-- `setGradientBackground(colors, direction)`: `unshift`s a
`<defs><linearGradient id="bg-gradient" ...>` block and pushes a full-canvas
rect filled with `url(#bg-gradient)`.  (In the source both `x1` and `y1` are
`'0%'` in either direction.) -/
def setGradientBackground (st : SVGState) (colors : List String)
    (direction : GradDir := .horizontal) : SVGState :=
  let x2 := match direction with | .horizontal => "100%" | .vertical => "0%"
  let y2 := match direction with | .horizontal => "0%" | .vertical => "100%"
  let stops := gradStopsAux (colors.length - 1) 0 colors
  { st with elements :=
      Frag.gradientDef "bg-gradient" "0%" "0%" x2 y2 stops ::
        (st.elements ++ [Frag.gradientRect "bg-gradient"]) }

/-- `drawText(text, x, y, options)`: pushes a `<text>` fragment whose
character data is `escapeXml(text)`. -/
def drawText (st : SVGState) (text : String) (x y : JsNum) (o : TextOptions) :
    SVGState :=
  { st with elements := st.elements ++ [.text x y o (escapeXml text.data)] }

/-- `drawCircle(cx, cy, r, options)`. -/
def drawCircle (st : SVGState) (cx cy r : JsNum)
    (o : CircleOptions := {}) : SVGState :=
  { st with elements := st.elements ++ [.circle cx cy r o] }

/-- `drawRectangle(x, y, width, height, options)`. -/
def drawRectangle (st : SVGState) (x y w h : JsNum)
    (o : RectOptions := {}) : SVGState :=
  { st with elements := st.elements ++ [.rect x y w h o] }

/-- `addDropShadowFilter(id, dx, dy, blur, opacity)`: `unshift`s a
`<defs><filter id=...>` block. -/
def addDropShadowFilter (st : SVGState) (id : String)
    (dx : JsNum := jsOfNat 2) (dy : JsNum := jsOfNat 2)
    (blur : JsNum := jsOfNat 4) (opacity : JsNum := .fin (fl 5 10)) : SVGState :=
  { st with elements := .filterDef id dx dy blur opacity :: st.elements }

/-- `generateSVG()`: the document is the `elements` array joined in order
inside the fixed `<svg>` wrapper; the model exposes the ordered fragment
list. -/
def generateSVG (st : SVGState) : List Frag := st.elements

/-- `toSVG()` delegates to `generateSVG()`. -/
def toSVG (st : SVGState) : List Frag := generateSVG st

/-- One method call on the generator, for quantifying over call
sequences. -/
inductive GenCall where
  | setBackground (color : String)
  | setGradientBackground (colors : List String) (direction : GradDir)
  | drawText (text : String) (x y : JsNum) (o : TextOptions)
  | drawCircle (cx cy r : JsNum) (o : CircleOptions)
  | drawRectangle (x y w h : JsNum) (o : RectOptions)
  | addDropShadowFilter (id : String) (dx dy blur opacity : JsNum)
deriving DecidableEq, Repr

/-- Execute one call on the generator state. -/
def applyCall (st : SVGState) : GenCall → SVGState
  | .setBackground c => setBackground st c
  | .setGradientBackground cs d => setGradientBackground st cs d
  | .drawText t x y o => drawText st t x y o
  | .drawCircle cx cy r o => drawCircle st cx cy r o
  | .drawRectangle x y w h o => drawRectangle st x y w h o
  | .addDropShadowFilter id dx dy blur op => addDropShadowFilter st id dx dy blur op

/-- Execute a sequence of calls in order. -/
def runCalls (st : SVGState) (cs : List GenCall) : SVGState :=
  cs.foldl applyCall st

/-- The definition blocks a call `unshift`s (none or one). -/
def callDefs : GenCall → List Frag
  | .setGradientBackground cs d =>
      [Frag.gradientDef "bg-gradient" "0%" "0%"
        (match d with | .horizontal => "100%" | .vertical => "0%")
        (match d with | .horizontal => "0%" | .vertical => "100%")
        (gradStopsAux (cs.length - 1) 0 cs)]
  | .addDropShadowFilter id dx dy blur op => [.filterDef id dx dy blur op]
  | _ => []

/-- The drawable fragments a call `push`es (none or one). -/
def callDraws : GenCall → List Frag
  | .setBackground c => [.bgRect c]
  | .setGradientBackground _ _ => [.gradientRect "bg-gradient"]
  | .drawText t x y o => [.text x y o (escapeXml t.data)]
  | .drawCircle cx cy r o => [.circle cx cy r o]
  | .drawRectangle x y w h o => [.rect x y w h o]
  | .addDropShadowFilter _ _ _ _ _ => []

/-- All definition blocks of a call sequence, in insertion order. -/
def defsOf : List GenCall → List Frag
  | [] => []
  | c :: cs => callDefs c ++ defsOf cs

/-- All drawable fragments of a call sequence, in call order. -/
def drawsOf : List GenCall → List Frag
  | [] => []
  | c :: cs => callDraws c ++ drawsOf cs

/-- What claim C3 asserts: the serialized document is the definitions in
insertion order followed by the drawables in call order. -/
def serializationOrderClaim : Prop :=
  ∀ (w h : Int) (cs : List GenCall),
    generateSVG (runCalls (SVGState.mkGen w h) cs) = defsOf cs ++ drawsOf cs

/-- Concrete two-definition call sequence for refuting C3 as stated. -/
def twoFilterCalls : List GenCall :=
  [GenCall.addDropShadowFilter "a" (jsOfNat 2) (jsOfNat 2) (jsOfNat 4) (.fin (fl 5 10)),
   GenCall.addDropShadowFilter "b" (jsOfNat 2) (jsOfNat 2) (jsOfNat 4) (.fin (fl 5 10))]

/-! ## The GitHub profile client (src/services/github.ts, lines 45-152)

`GitHubService.getUserInfo` consults `this.cache` (a `Map` keyed by
username), returns a fresh entry without fetching, otherwise performs the
single `fetch` and either stores the parsed record with `Date.now()` or
throws a classified error, leaving the cache untouched.

The embedding makes the effects explicit: the cache is an association list
with `Map.set` semantics (replace in place or append), `Date.now()` is the
parameter `now`, and the outcome of the network call — which the function
does not control — is the parameter `fetched`.  The record type is a
parameter `α`: the caching logic never inspects the record. -/

/-- A cache entry: the parsed record and its insertion time. -/
structure CacheEntry (α : Type) where
  data : α
  timestamp : Int
deriving DecidableEq, Repr

/-- `cacheTimeout = 5 * 60 * 1000` (5 minutes, in milliseconds). -/
def cacheTimeout : Int := 5 * 60 * 1000

/-- Outcome of the single `fetch` call: a parsed 2xx response, a non-ok
HTTP status, an abort by the timeout controller, or a thrown network
error. -/
inductive FetchResult (α : Type) where
  | ok (info : α)
  | httpError (status : Nat)
  | aborted
  | networkError
deriving DecidableEq, Repr

/-- The errors `getUserInfo` throws (classification of lines 81-107). -/
inductive GHError where
  | notFound
  | rateLimited
  | apiError (status : Nat)
  | timeout
  | network
deriving DecidableEq, Repr

/-- Error classification: 404 → not-found, 403 → rate-limited, other
statuses → generic API error, abort → timeout, thrown → network. -/
def classifyFailure {α : Type} : FetchResult α → GHError
  | .ok _ => .network
  | .httpError 404 => .notFound
  | .httpError 403 => .rateLimited
  | .httpError s => .apiError s
  | .aborted => .timeout
  | .networkError => .network

/-- `Map.set` on the association-list cache: replaces the entry for the key
in place, or appends a new one. -/
def cacheSet {α : Type} :
    List (String × CacheEntry α) → String → CacheEntry α →
    List (String × CacheEntry α)
  | [], k, v => [(k, v)]
  | (k', v') :: t, k, v =>
      if k' = k then (k, v) :: t else (k', v') :: cacheSet t k v

/-- The full outcome of one `getUserInfo` call: returned value or thrown
error, the cache afterwards, and whether the network was consulted. -/
structure LookupOutcome (α : Type) where
  result : Except GHError α
  cache : List (String × CacheEntry α)
  networkCalled : Bool
deriving Repr

/-- The fetch-and-classify path of `getUserInfo` (lines 67-108): on a 2xx
response the record is cached under the username with timestamp `now`; on
any failure the classified error is thrown and the cache is untouched. -/
def fetchStep {α : Type} (cache : List (String × CacheEntry α)) (now : Int)
    (username : String) (fetched : FetchResult α) : LookupOutcome α :=
  match fetched with
  | .ok info => ⟨.ok info, cacheSet cache username ⟨info, now⟩, true⟩
  | f => ⟨.error (classifyFailure f), cache, true⟩

/-- `getUserInfo(username)` (lines 60-109): a cached entry younger than the
TTL is returned without any network call; otherwise the fetch path runs. -/
def getUserInfo {α : Type} (cache : List (String × CacheEntry α)) (now : Int)
    (username : String) (fetched : FetchResult α) : LookupOutcome α :=
  match List.lookup username cache with
  | some e =>
      if now - e.timestamp < cacheTimeout then ⟨.ok e.data, cache, false⟩
      else fetchStep cache now username fetched
  | none => fetchStep cache now username fetched

/-! ## The /github endpoint (src/handlers/github.ts, lines 193-477)

`generateGitHubImage` looks the user up, substitutes a fallback record with
`login = user` on any lookup failure, and always builds and serializes the
scene; `handleGitHubEndpoint` wraps the result in
`createOptimizedResponse`, whose `new Response(body, { headers })` has the
default status 200.  The random greeting is a parameter, and the record
fields the handlers never read are omitted from the record type. -/

/-- The fields of the GitHub user record that the modelled code reads.  The
remaining fields of the API response (ids, urls, biography, timestamps) are
never consulted by the handlers and are omitted. -/
structure GitHubUserInfo where
  login : String
  name : String
  avatar_url : String
  html_url : String
  public_repos : Nat
  followers : Nat
deriving DecidableEq, Repr

/-- The fallback record built in the `catch` block (lines 236-269): `login`
and `name` are the requested username, the avatar and profile urls follow
the fixed GitHub pattern, and all counts are 0.  (`userInfo?.name` is
`undefined` inside the catch, so `name` falls back to `user`.) -/
def fallbackUserInfo (user : String) : GitHubUserInfo :=
  { login := user
    name := user
    avatar_url := "https://github.com/" ++ user ++ ".png"
    html_url := "https://github.com/" ++ user
    public_repos := 0
    followers := 0 }

/-- An HTTP response, restricted to what the claims consult: the status,
the content type, and the serialized SVG document (as its fragment list). -/
structure HttpResponse where
  status : Nat
  contentType : String
  svgBody : List Frag
deriving DecidableEq, Repr

/-- `createOptimizedResponse(body, contentType, isStatic)`
(src/utils/performance.ts, lines 227-241): `new Response(body, { headers })`
— the default status 200 with the content type and cache headers. -/
def createOptimizedResponse (body : List Frag) (contentType : String)
    (isStatic : Bool) : HttpResponse :=
  ⟨200, contentType, body⟩

/-- `generateGitHubImage(params)` (lines 226-363), with the lookup outcome
and the random greeting `(language, message)` as parameters. -/
def generateGitHubImage (width height : Int) (user : String)
    (lookup : Except GHError GitHubUserInfo) (greeting : String × String) :
    List Frag :=
  let userInfo := match lookup with
    | .ok i => i
    | .error _ => fallbackUserInfo user
  let centerX := jsDiv (jsOfInt width) (jsOfNat 2)
  let centerY := jsDiv (jsOfInt height) (jsOfNat 2)
  let g := SVGState.mkGen width height
  let g := addDropShadowFilter g "textShadow" (jsOfNat 3) (jsOfNat 3)
    (jsOfNat 6) (.fin (fl 4 10))
  let g := setGradientBackground g ["#667eea", "#764ba2"] .vertical
  let g := drawText g greeting.2 centerX (jsSub centerY (jsOfNat 80))
    { fontSize := jsOfNat 60, fontFamily := "Arial, sans-serif"
      fontWeight := "bold", fill := "#ffffff", stroke := some "#000000"
      strokeWidth := jsOfNat 2, textAnchor := "middle"
      dominantBaseline := "middle", filter := some "url(#textShadow)" }
  let g := drawText g ("--(" ++ greeting.1 ++ ")--") centerX
    (jsSub centerY (jsOfNat 20))
    { fontSize := jsOfNat 20, fontFamily := "Arial, sans-serif"
      fill := "#ffffff", textAnchor := "middle"
      dominantBaseline := "middle", filter := some "url(#textShadow)" }
  let g := drawText g userInfo.login (jsSub (jsOfInt width) (jsOfNat 200))
    (jsOfNat 80)
    { fontSize := jsOfNat 30, fontFamily := "Arial, sans-serif"
      fontWeight := "normal", fill := "#03A87C"
      stroke := some "rgba(255, 255, 255, 0.5)", strokeWidth := jsOfNat 1
      textAnchor := "start", dominantBaseline := "middle" }
  let g := drawRectangle g (jsOfNat 50) (jsOfNat 100)
    (jsSub (jsOfInt width) (jsOfNat 280)) (jsOfNat 2) { fill := "#03A87C" }
  let g := if 0 < userInfo.public_repos || 0 < userInfo.followers then
      drawText g (toString userInfo.public_repos ++ " repos • " ++
          toString userInfo.followers ++ " followers")
        (jsOfNat 50) (jsOfNat 140)
        { fontSize := jsOfNat 18, fontFamily := "Arial, sans-serif"
          fill := "#ffffff", textAnchor := "start"
          dominantBaseline := "middle" }
    else g
  let g := drawRectangle g (jsOfNat 50) (jsOfNat 50) (jsOfNat 80) (jsOfNat 80)
    { fill := "#cccccc", stroke := some "#ffffff", strokeWidth := jsOfNat 3
      rx := jsOfNat 10 }
  let g := drawText g "👤"
    (jsAdd (jsOfNat 50) (jsDiv (jsOfNat 80) (jsOfNat 2)))
    (jsAdd (jsOfNat 50) (jsDiv (jsOfNat 80) (jsOfNat 2)))
    { fontSize := jsOfNat 40, textAnchor := "middle"
      dominantBaseline := "middle" }
  toSVG g

/-- `params.user || 'user'` — the empty string is falsy. -/
def orDefault (p : Option String) (dflt : String) : String :=
  match p with
  | none => dflt
  | some s => if s = "" then dflt else s

/-- `handleGitHubEndpoint(request)` (lines 449-477): parse the query
parameters, generate the image (the lookup-failure fallback is inside
`generateGitHubImage`, which is total, so the catch branches are
unreachable in the model), and wrap it with status 200. -/
def handleGitHubEndpoint (userParam wParam hParam : Option String)
    (lookup : Except GHError GitHubUserInfo) (greeting : String × String) :
    HttpResponse :=
  let user := orDefault userParam "user"
  let dims := validateDimensions (orDefault wParam "1200") (orDefault hParam "630")
  let content := generateGitHubImage dims.1 dims.2 user lookup greeting
  createOptimizedResponse content "image/svg+xml" false

/-- With a zero increment the accumulation loop never exits: `initStop` stays
at 0 forever. -/
theorem gsLoop_zero_inc (fuel : Nat) :
    ∀ acc, gsLoop (JsNum.fin dZero) fuel (JsNum.fin dZero) acc = none := by
  induction fuel with
  | zero => intro acc; rfl
  | succ f ih =>
      intro acc
      have h1 : jsLt (JsNum.fin dZero) (jsOfNat 1) = true := by decide
      have h2 : jsAdd (JsNum.fin dZero) (JsNum.fin dZero) = JsNum.fin dZero := by
        decide
      simp only [gsLoop, h1, if_true, h2]
      exact ih _

/-- `replaceAllChar` distributes over append. -/
theorem replaceAllChar_append (c : Char) (rep l1 l2 : List Char) :
    replaceAllChar c rep (l1 ++ l2) =
      replaceAllChar c rep l1 ++ replaceAllChar c rep l2 := by
  induction l1 with
  | nil => rfl
  | cons a l ih => simp [replaceAllChar, ih]

/-- `escapeXml` distributes over append. -/
theorem escapeXml_append (l1 l2 : List Char) :
    escapeXml (l1 ++ l2) = escapeXml l1 ++ escapeXml l2 := by
  simp [escapeXml, replaceAllChar_append]

/-- `escapeXml` of one character is its per-character escape. -/
theorem escapeXml_single (a : Char) : escapeXml [a] = escChar a := by
  by_cases h1 : a = '&'
  · subst h1; decide
  by_cases h2 : a = '<'
  · subst h2; decide
  by_cases h3 : a = '>'
  · subst h3; decide
  by_cases h4 : a = quotChar
  · subst h4; decide
  by_cases h5 : a = aposChar
  · subst h5; decide
  simp [escapeXml, replaceAllChar, escChar, h1, h2, h3, h4, h5]

/-- `escapeXml` processes its input character by character. -/
theorem escapeXml_cons (a : Char) (l : List Char) :
    escapeXml (a :: l) = escChar a ++ escapeXml l := by
  have h : a :: l = [a] ++ l := rfl
  rw [h, escapeXml_append, escapeXml_single]

set_option maxHeartbeats 2000000 in
/-- Prepending one character escape preserves well-escapedness. -/
theorem wellEscaped_escChar (a : Char) (r : List Char)
    (hr : wellEscaped r = true) : wellEscaped (escChar a ++ r) = true := by
  by_cases h1 : a = '&'
  · subst h1; simpa [escChar, wellEscaped] using hr
  by_cases h2 : a = '<'
  · subst h2; simpa [escChar, wellEscaped] using hr
  by_cases h3 : a = '>'
  · subst h3; simpa [escChar, wellEscaped] using hr
  by_cases h4 : a = quotChar
  · subst h4; simpa [escChar, wellEscaped] using hr
  by_cases h5 : a = aposChar
  · subst h5; simpa [escChar, wellEscaped] using hr
  have hcons : escChar a ++ r = a :: r := by
    simp [escChar, h1, h2, h3, h4, h5]
  rw [hcons, wellEscaped.eq_def]
  simp only [h1, h2, h3, h4, h5, if_false, ite_false, or_self, or_false,
    false_or]
  exact hr

/-- The output of `escapeXml` is always well-escaped: it contains no raw
`<`, `>`, `"` or apostrophe, and every `&` begins an entity. -/
theorem wellEscaped_escapeXml (l : List Char) :
    wellEscaped (escapeXml l) = true := by
  induction l with
  | nil => decide
  | cons a l ih => rw [escapeXml_cons]; exact wellEscaped_escChar a _ ih

/-- One generator call prepends its definitions and appends its
drawables. -/
theorem applyCall_elements (st : SVGState) (c : GenCall) :
    (applyCall st c).elements = callDefs c ++ st.elements ++ callDraws c := by
  cases c with
  | setGradientBackground cs d =>
      cases d <;>
        simp [applyCall, setGradientBackground, callDefs, callDraws]
  | _ =>
      simp [applyCall, setBackground, drawText, drawCircle, drawRectangle,
        addDropShadowFilter, callDefs, callDraws]

/-- Per-call definition lists have at most one element. -/
theorem callDefs_reverse (c : GenCall) : (callDefs c).reverse = callDefs c := by
  cases c <;> rfl

/-- Running a call sequence leaves the definitions reversed at the front of
the element array and the drawables appended in call order. -/
theorem runCalls_elements (st : SVGState) (cs : List GenCall) :
    (runCalls st cs).elements =
      (defsOf cs).reverse ++ st.elements ++ drawsOf cs := by
  induction cs generalizing st with
  | nil => simp [runCalls, defsOf, drawsOf]
  | cons c cs ih =>
      have h1 : runCalls st (c :: cs) = runCalls (applyCall st c) cs := rfl
      rw [h1, ih (applyCall st c), applyCall_elements]
      simp [defsOf, drawsOf, List.reverse_append, callDefs_reverse]

/-- C3: the claim that the serialized document lists the definitions in
insertion order is false: definitions are `unshift`ed, so each later
definition lands in front of the earlier ones.  With the two filter
definitions "a" then "b", the document starts with "b"'s block. -/
theorem c3_defs_order_counterexample : ¬ serializationOrderClaim := fun h =>
  absurd (h 800 400 twoFilterCalls) (by decide)

/-- C3 (amended): for every call sequence, the serialized document is the
definition blocks in reverse insertion order, followed by all drawable
fragments in their original call order; in particular every definition
precedes every drawable. -/
theorem c3_defs_order_amended :
    ∀ (w h : Int) (cs : List GenCall),
      generateSVG (runCalls (SVGState.mkGen w h) cs) =
        (defsOf cs).reverse ++ drawsOf cs := by
  intro w h cs
  have h1 := runCalls_elements (SVGState.mkGen w h) cs
  simpa [generateSVG, SVGState.mkGen] using h1

/-- C4: for every text string, options and prior state, `drawText` appends
exactly one text fragment whose character data is `escapeXml(text)`, and
that data is well-escaped: it contains no raw `<`, `>`, `"` or apostrophe,
and every `&` in it begins one of the five XML entities — so none of the
five metacharacters of the input survives unescaped in the serialized
output. -/
theorem c4_drawText_escapes :
    ∀ (st : SVGState) (text : String) (x y : JsNum) (o : TextOptions),
      (drawText st text x y o).elements =
        st.elements ++ [Frag.text x y o (escapeXml text.data)] ∧
      wellEscaped (escapeXml text.data) = true :=
  fun _ text _ _ _ => ⟨rfl, wellEscaped_escapeXml text.data⟩

/-- Position `k` of the gradient stop list built from index `i` onwards. -/
theorem gradStopsAux_get (colors : List String) :
    ∀ (n i k : Nat), (gradStopsAux n i colors).get? k =
      (colors.get? k).map (fun c => (gradOffset (i + k) n, c)) := by
  induction colors with
  | nil => intro n i k; simp [gradStopsAux]
  | cons c rest ih =>
      intro n i k
      cases k with
      | zero => simp [gradStopsAux]
      | succ k =>
          have h := ih n (i + 1) k
          simp only [gradStopsAux, List.get?]
          rw [h]
          have : i + 1 + k = i + (k + 1) := by omega
          rw [this]

/-- C6: the claim that a single-colour gradient places its stop at offset 0
is false: the offset is `(0 / (1 - 1)) * 100 = NaN`, interpolated as
`"NaN%"`, not 0. -/
theorem c6_gradient_offsets_counterexample :
    (setGradientBackground (SVGState.mkGen 800 400) ["#ff0000"]
        .vertical).elements =
      [Frag.gradientDef "bg-gradient" "0%" "0%" "0%" "100%"
        [(JsNum.nan, "#ff0000")],
       Frag.gradientRect "bg-gradient"] ∧
    JsNum.nan ≠ jsOfNat 0 := ⟨by decide, by decide⟩

/-- C6 (amended): `setGradientBackground` registers the gradient definition
whose `i`-th stop carries the offset `(i / (n-1)) * 100` evaluated in
JavaScript numbers (followed by the full-canvas reference rect); for `n ≥ 2`
the stops are evenly spaced from 0% to 100% (shown exactly for 2 and 5
colours), while for `n = 1` the single offset is `0/0 = NaN`. -/
theorem c6_gradient_offsets_amended :
    (∀ (st : SVGState) (colors : List String) (dir : GradDir),
        (setGradientBackground st colors dir).elements =
          Frag.gradientDef "bg-gradient" "0%" "0%"
              (match dir with | .horizontal => "100%" | .vertical => "0%")
              (match dir with | .horizontal => "0%" | .vertical => "100%")
              (gradStopsAux (colors.length - 1) 0 colors) ::
            (st.elements ++ [Frag.gradientRect "bg-gradient"])) ∧
    (∀ (colors : List String) (n k : Nat),
        (gradStopsAux n 0 colors).get? k =
          (colors.get? k).map (fun c => (gradOffset k n, c))) ∧
    gradOffset 0 0 = JsNum.nan ∧
    gradStopsAux 1 0 ["a", "b"] = [(jsOfNat 0, "a"), (jsOfNat 100, "b")] ∧
    gradStopsAux 4 0 ["a", "b", "c", "d", "e"] =
      [(jsOfNat 0, "a"), (jsOfNat 25, "b"), (jsOfNat 50, "c"),
       (jsOfNat 75, "d"), (jsOfNat 100, "e")] := by
  refine ⟨?_, ?_, by decide, by decide, by decide⟩
  · intro st colors dir
    cases dir <;> simp [setGradientBackground]
  · intro colors n k
    simpa using gradStopsAux_get colors n 0 k

/-- C1: the claim "for every integer count n ≥ 1, getGradientStops(n)
terminates with its first stop at offset 0 and a stop at offset 1 exactly
once" is already false at n = 1: the computation terminates with the single
stop `{0}`, and no stop at offset 1 is ever written, because the loop exits
with `initStop === 1` so the trailing `gStop[1]` assignment is skipped. -/
theorem c1_gradient_terminates_counterexample : ¬ gradientStopsClaimAt 1 := by
  intro h
  have h16 := h.2 16 [jsOfNat 0] (by decide)
  exact absurd h16.2 (by decide)

/-- C1 (amended): for 1 ≤ n ≤ 20 the loop terminates (fuel 16 suffices) and
the first stop is at offset 0, but a stop at offset 1 is present (exactly
once) only when the rounded increment does not accumulate to exactly 1.0,
namely for n ∈ {3, 4} (increment 0.3) and 7 ≤ n ≤ 20 (increment 0.1, whose
double accumulation reaches 0.9999999999999999 < 1); for n ∈ {1, 2, 5, 6}
the loop lands exactly on 1.0 and no stop at offset 1 is produced.  For
n = 21 the increment `parseFloat((1/21).toFixed(1))` is 0 and the loop never
terminates, whatever the fuel. -/
theorem c1_gradient_terminates_amended :
    (∀ n : Nat, 1 ≤ n → n ≤ 20 →
      (getGradientStops n 16).isSome = true ∧
      ((getGradientStops n 16).getD []).head? = some (jsOfNat 0) ∧
      (((getGradientStops n 16).getD []).count (jsOfNat 1) = 1 ↔
        (n = 3 ∨ n = 4 ∨ 7 ≤ n))) ∧
    (∀ fuel, getGradientStops 21 fuel = none) := by
  constructor
  · intro n h1 h2
    interval_cases n <;> exact ⟨by decide, by decide, by decide⟩
  · intro fuel
    have hinc : stopInc 21 = JsNum.fin dZero := by decide
    have h0 : jsOfNat 0 = JsNum.fin dZero := by decide
    simp only [getGradientStops, hinc, h0, gsLoop_zero_inc]

/-- Witness for C1 (amended) at n = 3. -/
theorem c1_gradient_terminates_witness :
    (getGradientStops 3 16).isSome = true ∧
    ((getGradientStops 3 16).getD []).head? = some (jsOfNat 0) ∧
    (((getGradientStops 3 16).getD []).count (jsOfNat 1) = 1 ↔
      (3 = 3 ∨ 3 = 4 ∨ 7 ≤ 3)) :=
  c1_gradient_terminates_amended.1 3 (by decide) (by decide)

/-- C2: the claim that getGradientStops(3) has its stops at offsets
0, 0.3, 0.6, 0.9 and 1 is false: the fourth offset is the double sum
0.6 + 0.3 = 0.8999999999999999, which is not the double 0.9. -/
theorem c2_stops3_counterexample :
    getGradientStops 3 16 ≠
      some [jsOfNat 0, JsNum.fin (fl 3 10), JsNum.fin (fl 6 10),
        JsNum.fin (fl 9 10), jsOfNat 1] := by decide

/-- C2 (amended): getGradientStops(3) does produce exactly five stops, the
increment is round(1/3, 1 decimal) = 0.3, and the final stop at offset 1 is
explicitly added because the accumulated value 1.1999999999999997 differs
from 1 — but the fourth offset is 0.6 + 0.3 = 0.8999999999999999 in binary64,
strictly below (one ulp under) the double 0.9. -/
theorem c2_stops3_amended :
    getGradientStops 3 16 =
      some [jsOfNat 0, JsNum.fin (fl 3 10), JsNum.fin (fl 6 10),
        JsNum.fin (dAdd (fl 6 10) (fl 3 10)), jsOfNat 1] ∧
    stopInc 3 = JsNum.fin (fl 3 10) ∧
    dAdd (fl 6 10) (fl 3 10) ≠ fl 9 10 ∧
    dLt (dAdd (fl 6 10) (fl 3 10)) (fl 9 10) = true := by
  refine ⟨by decide, by decide, by decide, by decide⟩

/-- C7: the claim that every supplied numeric value is clamped into
[100, 2000] (with the defaults only for absent parameters) is false: a
supplied width of 0 is falsy in `parseInt(...) || 1200`, so it is replaced
by the default 1200 instead of being clamped to 100. -/
theorem c7_validateDimensions_counterexample : ¬ validateDimensionsClaim :=
  fun h => absurd (h "0" "400" 0 400 (by decide) (by decide)) (by decide)

/-- C7 (amended): both results always lie in [100, 2000]; a supplied value
that parses to a nonzero number is clamped into [100, 2000], so
(50, 5000) ↦ (100, 2000) and (800, 400) is unchanged — but a value parsing
to NaN or to 0 is replaced by the default (1200 or 630), not clamped, e.g.
width "0" yields 1200. -/
theorem c7_validateDimensions_amended :
    (∀ ws hs, 100 ≤ (validateDimensions ws hs).1 ∧
       (validateDimensions ws hs).1 ≤ 2000 ∧
       100 ≤ (validateDimensions ws hs).2 ∧
       (validateDimensions ws hs).2 ≤ 2000) ∧
    (∀ ws hs wv hv, jsParseInt10 ws = some wv → wv ≠ 0 →
       jsParseInt10 hs = some hv → hv ≠ 0 →
       validateDimensions ws hs =
         (max 100 (min 2000 wv), max 100 (min 2000 hv))) ∧
    (∀ ws hs, jsParseInt10 ws = none ∨ jsParseInt10 ws = some 0 →
       (validateDimensions ws hs).1 = 1200) ∧
    validateDimensions "50" "5000" = (100, 2000) ∧
    validateDimensions "800" "400" = (800, 400) ∧
    validateDimensions "0" "400" = (1200, 400) := by
  have hbounds : ∀ (v : Int), 100 ≤ max 100 (min 2000 v) ∧
      max 100 (min 2000 v) ≤ 2000 := fun v => by omega
  refine ⟨?_, ?_, ?_, by decide, by decide, by decide⟩
  · intro ws hs
    exact ⟨(hbounds _).1, (hbounds _).2, (hbounds _).1, (hbounds _).2⟩
  · intro ws hs wv hv hw hw0 hh hh0
    simp [validateDimensions, validateDim, hw, hh, hw0, hh0]
  · intro ws hs h
    rcases h with h | h <;> simp [validateDimensions, validateDim, h]

/-- Witness for C7 (amended) at the supplied pair ("150", "900"). -/
theorem c7_validateDimensions_witness :
    validateDimensions "150" "900" =
      (max 100 (min 2000 150), max 100 (min 2000 900)) :=
  c7_validateDimensions_amended.2.1 "150" "900" 150 900 (by decide)
    (by decide) (by decide) (by decide)

/-- `Map.set` stores the new entry under its key. -/
theorem lookup_cacheSet_self {α : Type} (c : List (String × CacheEntry α))
    (u : String) (v : CacheEntry α) :
    List.lookup u (cacheSet c u v) = some v := by
  induction c with
  | nil => simp [cacheSet, List.lookup]
  | cons p t ih =>
      obtain ⟨k', v'⟩ := p
      by_cases h : k' = u
      · subst h
        simp [cacheSet, List.lookup]
      · have hb : (u == k') = false :=
          beq_eq_false_iff_ne.mpr (fun e => h e.symm)
        simp [cacheSet, h, List.lookup, hb, ih]

/-- `Map.set` leaves every other key unchanged. -/
theorem lookup_cacheSet_ne {α : Type} (c : List (String × CacheEntry α))
    (u k : String) (v : CacheEntry α) (h : k ≠ u) :
    List.lookup k (cacheSet c u v) = List.lookup k c := by
  induction c with
  | nil => simp [cacheSet, List.lookup, beq_eq_false_iff_ne.mpr h]
  | cons p t ih =>
      obtain ⟨k', v'⟩ := p
      by_cases h2 : k' = u
      · subst h2
        simp [cacheSet, List.lookup, beq_eq_false_iff_ne.mpr h]
      · simp [cacheSet, h2, List.lookup, ih]

/-- C8: (a) a cache entry younger than the 5-minute TTL is returned as-is,
with the cache unchanged and no network call issued; (b) when no fresh
entry exists, a successful fetch returns the fetched record and stores it
with timestamp `now` under the username, overwriting any prior entry for
that key and leaving all other keys unchanged. -/
theorem c8_cache_behavior :
    (∀ (α : Type) (cache : List (String × CacheEntry α)) (now : Int)
        (u : String) (fetched : FetchResult α) (e : CacheEntry α),
        List.lookup u cache = some e → now - e.timestamp < cacheTimeout →
        getUserInfo cache now u fetched = ⟨.ok e.data, cache, false⟩) ∧
    (∀ (α : Type) (cache : List (String × CacheEntry α)) (now : Int)
        (u : String) (info : α),
        (∀ e, List.lookup u cache = some e →
          cacheTimeout ≤ now - e.timestamp) →
        (getUserInfo cache now u (.ok info)).result = .ok info ∧
        (getUserInfo cache now u (.ok info)).networkCalled = true ∧
        (getUserInfo cache now u (.ok info)).cache =
          cacheSet cache u ⟨info, now⟩ ∧
        List.lookup u (getUserInfo cache now u (.ok info)).cache =
          some ⟨info, now⟩ ∧
        ∀ k, k ≠ u →
          List.lookup k (getUserInfo cache now u (.ok info)).cache =
            List.lookup k cache) := by
  constructor
  · intro α cache now u fetched e he hfresh
    simp [getUserInfo, he, hfresh]
  · intro α cache now u info hstale
    have hrun : getUserInfo cache now u (.ok info) =
        ⟨.ok info, cacheSet cache u ⟨info, now⟩, true⟩ := by
      cases he : List.lookup u cache with
      | none => simp [getUserInfo, he, fetchStep]
      | some e =>
          have hst := hstale e he
          have hnf : ¬ (now - e.timestamp < cacheTimeout) := by omega
          simp [getUserInfo, he, hnf, fetchStep]
    rw [hrun]
    exact ⟨rfl, rfl, rfl, lookup_cacheSet_self _ _ _,
      fun k hk => lookup_cacheSet_ne _ _ _ _ hk⟩

/-- Witness for C8: a fresh hit served from the cache without a network
call, and a successful fetch stored under the username. -/
theorem c8_cache_behavior_witness :
    getUserInfo [("octocat", (⟨7, 0⟩ : CacheEntry Nat))] 1000 "octocat"
        FetchResult.networkError = ⟨.ok 7, [("octocat", ⟨7, 0⟩)], false⟩ ∧
    List.lookup "octocat"
        (getUserInfo ([] : List (String × CacheEntry Nat)) 1000 "octocat"
          (FetchResult.ok 7)).cache = some ⟨7, 1000⟩ :=
  ⟨c8_cache_behavior.1 Nat _ 1000 "octocat" _ ⟨7, 0⟩ (by simp [List.lookup])
      (by decide),
   (c8_cache_behavior.2 Nat [] 1000 "octocat" 7
      (fun e h => by simp [List.lookup] at h)).2.2.2.1⟩

/-- C10: every failing lookup — non-ok HTTP status (user not found, rate
limit, any other status), timeout abort, or thrown network error — leaves
the cache exactly as it was: nothing is added, removed or overwritten, and
in particular a stale entry is not evicted. -/
theorem c10_cache_unchanged_on_failure :
    ∀ (α : Type) (cache : List (String × CacheEntry α)) (now : Int)
      (u : String) (fetched : FetchResult α),
      (∀ info, fetched ≠ .ok info) →
      (getUserInfo cache now u fetched).cache = cache := by
  intro α cache now u fetched hfail
  have hstep : ∀ (f : FetchResult α), (∀ info, f ≠ .ok info) →
      (fetchStep cache now u f).cache = cache := by
    intro f hf
    cases f with
    | ok info => exact absurd rfl (hf info)
    | httpError s => rfl
    | aborted => rfl
    | networkError => rfl
  cases he : List.lookup u cache with
  | none => simp [getUserInfo, he, hstep _ hfail]
  | some e =>
      simp only [getUserInfo, he]
      split
      · rfl
      · exact hstep _ hfail

/-- Witness for C10: a 404 failure leaves a stale (older than TTL) entry in
place. -/
theorem c10_cache_unchanged_on_failure_witness :
    (getUserInfo [("alice", (⟨3, 0⟩ : CacheEntry Nat))] 10000000 "alice"
        (FetchResult.httpError 404)).cache = [("alice", ⟨3, 0⟩)] :=
  c10_cache_unchanged_on_failure Nat _ 10000000 "alice" _
    (fun info h => by cases h)

/-- In the lookup-failure case, the degraded scene still draws the (escaped)
username: the login text fragment of the fallback record is in the
serialized document. -/
theorem login_mem_generateGitHubImage (w h : Int) (user : String)
    (err : GHError) (greeting : String × String) :
    ∃ x y o, Frag.text x y o (escapeXml user.data) ∈
      generateGitHubImage w h user (.error err) greeting := by
  refine ⟨jsSub (jsOfInt w) (jsOfNat 200), jsOfNat 80,
    { fontSize := jsOfNat 30, fontFamily := "Arial, sans-serif"
      fontWeight := "normal", fill := "#03A87C"
      stroke := some "rgba(255, 255, 255, 0.5)", strokeWidth := jsOfNat 1
      textAnchor := "start", dominantBaseline := "middle" }, ?_⟩
  simp [generateGitHubImage, toSVG, generateSVG, drawText, drawRectangle,
    addDropShadowFilter, setGradientBackground, SVGState.mkGen,
    fallbackUserInfo]

/-- C9: when the profile lookup fails with any error, the /github handler
still returns HTTP 200 with content type image/svg+xml, and the serialized
document contains a text fragment whose character data is the escaped
username. -/
theorem c9_github_fallback :
    ∀ (user : String) (wParam hParam : Option String) (err : GHError)
      (greeting : String × String),
      user ≠ "" →
      (handleGitHubEndpoint (some user) wParam hParam (.error err)
          greeting).status = 200 ∧
      (handleGitHubEndpoint (some user) wParam hParam (.error err)
          greeting).contentType = "image/svg+xml" ∧
      ∃ x y o, Frag.text x y o (escapeXml user.data) ∈
        (handleGitHubEndpoint (some user) wParam hParam (.error err)
          greeting).svgBody := by
  intro user wParam hParam err greeting hu
  refine ⟨rfl, rfl, ?_⟩
  have h := login_mem_generateGitHubImage
    (validateDimensions (orDefault wParam "1200") (orDefault hParam "630")).1
    (validateDimensions (orDefault wParam "1200") (orDefault hParam "630")).2
    user err greeting
  simpa [handleGitHubEndpoint, createOptimizedResponse, orDefault, hu] using h

/-- Every hexadecimal digit value is below 16. -/
theorem hexVal_lt (c : Char) : hexVal c < 16 := by
  unfold hexVal
  split
  · omega
  split
  · omega
  split
  · omega
  · omega

/-- Lowercase hexadecimal digits are hexadecimal digits. -/
theorem lower_hex_isHexDigit (c : Char) (h : isLowerHexDigit c = true) :
    isHexDigitB c = true := by
  simp [isLowerHexDigit] at h
  simp [isHexDigitB]
  omega

/-- Rendering the value of a lowercase hexadecimal digit gives the digit
back. -/
theorem toHexDigit_hexVal (c : Char) (h : isLowerHexDigit c = true) :
    toHexDigit (hexVal c) = c := by
  simp [isLowerHexDigit] at h
  rcases h with h | h
  · have h1 : hexVal c = c.toNat - 48 := by
      unfold hexVal; rw [if_pos (by omega)]
    rw [h1]
    unfold toHexDigit
    rw [if_pos (by omega), show 48 + (c.toNat - 48) = c.toNat by omega,
      Char.ofNat_toNat]
  · have h1 : hexVal c = c.toNat - 87 := by
      unfold hexVal
      rw [if_neg (by omega), if_pos (by omega)]
    rw [h1]
    unfold toHexDigit
    rw [if_neg (by omega), show 87 + (c.toNat - 87) = c.toNat by omega,
      Char.ofNat_toNat]

/-- The hexadecimal parse of `k` digits is below `16 ^ k`. -/
theorem parseHexAcc_lt (ds : List Char) :
    ∀ a : Nat,
      ds.foldl (fun a c => 16 * a + hexVal c) a < (a + 1) * 16 ^ ds.length := by
  induction ds with
  | nil => intro a; simp
  | cons c t ih =>
      intro a
      have h1 := ih (16 * a + hexVal c)
      have h2 : hexVal c < 16 := hexVal_lt c
      show List.foldl (fun a c => 16 * a + hexVal c) (16 * a + hexVal c) t <
        (a + 1) * 16 ^ (t.length + 1)
      calc List.foldl (fun a c => 16 * a + hexVal c) (16 * a + hexVal c) t
          < (16 * a + hexVal c + 1) * 16 ^ t.length := h1
        _ ≤ ((a + 1) * 16) * 16 ^ t.length :=
            Nat.mul_le_mul_right _ (by omega)
        _ = (a + 1) * 16 ^ (t.length + 1) := by rw [pow_succ]; ring

/-- Fixed-width rendering inverts parsing on lowercase digit strings. -/
theorem toHexFixed_parse (ds : List Char)
    (h : ∀ c ∈ ds, isLowerHexDigit c = true) :
    toHexFixed ds.length (ds.foldl (fun a c => 16 * a + hexVal c) 0) = ds := by
  induction ds using List.reverseRecOn with
  | nil => rfl
  | append_singleton t c ih =>
      have hc : isLowerHexDigit c = true := h c (by simp)
      have ht : ∀ x ∈ t, isLowerHexDigit x = true := fun x hx =>
        h x (by simp [hx])
      have hfold : List.foldl (fun a c => 16 * a + hexVal c) 0 (t ++ [c]) =
          16 * List.foldl (fun a c => 16 * a + hexVal c) 0 t + hexVal c := by
        rw [List.foldl_append]
        rfl
      have hlen : (t ++ [c]).length = t.length + 1 := by simp
      rw [hfold, hlen]
      have hvc : hexVal c < 16 := hexVal_lt c
      unfold toHexFixed
      have hdiv :
          (16 * List.foldl (fun a c => 16 * a + hexVal c) 0 t + hexVal c) / 16 =
          List.foldl (fun a c => 16 * a + hexVal c) 0 t := by omega
      have hmod :
          (16 * List.foldl (fun a c => 16 * a + hexVal c) 0 t + hexVal c) % 16 =
          hexVal c := by omega
      rw [hdiv, hmod, ih ht, toHexDigit_hexVal c hc]

/-- The accumulator of `hexRepAux` is a suffix it never inspects. -/
theorem hexRepAux_append (fuel : Nat) :
    ∀ (n : Nat) (acc : List Char),
      hexRepAux fuel n acc = hexRepAux fuel n [] ++ acc := by
  induction fuel with
  | zero => intro n acc; rfl
  | succ f ih =>
      intro n acc
      by_cases h : n < 16
      · simp [hexRepAux, h]
      · simp only [hexRepAux, if_neg h]
        rw [ih (n / 16) (toHexDigit (n % 16) :: acc),
          ih (n / 16) [toHexDigit (n % 16)]]
        simp

/-- `padStart` commutes with appending a final character. -/
theorem padStart_append_one (k : Nat) (c0 c : Char) (l : List Char) :
    padStart (k + 1) c0 (l ++ [c]) = padStart k c0 l ++ [c] := by
  unfold padStart
  simp only [List.length_append, List.length_singleton]
  have h : k + 1 - (l.length + 1) = k - l.length := by omega
  rw [h, List.append_assoc]

/-- Fixed-width rendering of 0 is all zero digits. -/
theorem toHexFixed_zero (k : Nat) : toHexFixed k 0 = List.replicate k '0' := by
  induction k with
  | zero => rfl
  | succ n ih =>
      unfold toHexFixed
      rw [Nat.zero_div, ih, Nat.zero_mod]
      rw [show toHexDigit 0 = '0' from rfl, List.replicate_succ']

/-- Padding the minimal rendering to `k + 1` digits gives the fixed-width
rendering, for any sufficient fuel. -/
theorem pad_hexRepAux (k : Nat) :
    ∀ (f n : Nat), n < 16 ^ (k + 1) → n < 16 ^ (f + 1) →
      padStart (k + 1) '0' (hexRepAux (f + 1) n []) = toHexFixed (k + 1) n := by
  induction k with
  | zero =>
      intro f n hk _
      have h16 : n < 16 := by simpa using hk
      simp only [hexRepAux, if_pos h16]
      unfold toHexFixed toHexFixed padStart
      simp [Nat.mod_eq_of_lt h16, Nat.div_eq_of_lt h16]
  | succ k ih =>
      intro f n hk hf
      by_cases h16 : n < 16
      · simp only [hexRepAux, if_pos h16]
        unfold toHexFixed
        rw [Nat.div_eq_of_lt h16, Nat.mod_eq_of_lt h16, toHexFixed_zero]
        unfold padStart
        simp [List.replicate_succ']
      · have hf1 : 1 ≤ f := by
          by_contra hc
          have hf0 : f = 0 := by omega
          subst hf0
          simp at hf
          omega
        obtain ⟨f', rfl⟩ : ∃ f', f = f' + 1 := ⟨f - 1, by omega⟩
        have hstep : hexRepAux (f' + 1 + 1) n [] =
            hexRepAux (f' + 1) (n / 16) [] ++ [toHexDigit (n % 16)] := by
          simp only [hexRepAux, if_neg h16]
          exact hexRepAux_append (f' + 1) (n / 16) [toHexDigit (n % 16)]
        rw [hstep, padStart_append_one]
        have hdk : n / 16 < 16 ^ (k + 1) := by
          have h2 : n < 16 ^ (k + 1) * 16 := by rw [← pow_succ]; exact hk
          exact Nat.div_lt_of_lt_mul (by omega)
        have hdf : n / 16 < 16 ^ (f' + 1) := by
          have h2 : n < 16 ^ (f' + 1) * 16 := by rw [← pow_succ]; exact hf
          exact Nat.div_lt_of_lt_mul (by omega)
        rw [ih f' (n / 16) hdk hdf]
        rfl

/-- `toString(16).padStart(6, '0')` is the 6-digit fixed-width rendering
for 24-bit values. -/
theorem pad_hexRep (v : Nat) (hv : v < 16 ^ 6) :
    padStart 6 '0' (hexRep v) = toHexFixed 6 v := by
  unfold hexRep
  have hself : v < 16 ^ (v + 1) := by
    calc v < 16 ^ v := Nat.lt_pow_self (by omega) v
      _ ≤ 16 ^ (v + 1) := Nat.pow_le_pow_right (by omega) (by omega)
  exact pad_hexRepAux 5 v v hv hself

/-- With delta 0 the clamped channels recompose to the parsed value. -/
theorem recompose_id (v : Nat) (hv : v < 2 ^ 24) :
    ((clamp255 (((v >>> 16 : Nat) : Int) + 0) <<< 16) |||
      (clamp255 ((((v >>> 8) &&& 255 : Nat) : Int) + 0) <<< 8) |||
      clamp255 (((v &&& 255 : Nat) : Int) + 0)) = v := by
  have h16 : v >>> 16 = v / 2 ^ 16 := Nat.shiftRight_eq_div_pow v 16
  have h8 : (v >>> 8) &&& 255 = v / 2 ^ 8 % 2 ^ 8 := by
    rw [Nat.shiftRight_eq_div_pow, show (255 : Nat) = 2 ^ 8 - 1 by norm_num,
      Nat.and_pow_two_sub_one_eq_mod]
  have hb : v &&& 255 = v % 2 ^ 8 := by
    rw [show (255 : Nat) = 2 ^ 8 - 1 by norm_num,
      Nat.and_pow_two_sub_one_eq_mod]
  have hr : clamp255 (((v >>> 16 : Nat) : Int) + 0) = v / 2 ^ 16 := by
    rw [h16]; unfold clamp255; omega
  have hg : clamp255 ((((v >>> 8) &&& 255 : Nat) : Int) + 0) =
      v / 2 ^ 8 % 2 ^ 8 := by
    rw [h8]; unfold clamp255; omega
  have hbv : clamp255 (((v &&& 255 : Nat) : Int) + 0) = v % 2 ^ 8 := by
    rw [hb]; unfold clamp255; omega
  rw [hr, hg, hbv, Nat.shiftLeft_eq, Nat.shiftLeft_eq]
  have hA : (v / 2 ^ 16) * 2 ^ 16 ||| (v / 2 ^ 8 % 2 ^ 8) * 2 ^ 8 =
      2 ^ 16 * (v / 2 ^ 16) + (v / 2 ^ 8 % 2 ^ 8) * 2 ^ 8 := by
    rw [Nat.mul_comm (v / 2 ^ 16) (2 ^ 16)]
    exact (Nat.mul_add_lt_is_or (by omega) _).symm
  rw [hA]
  have hfac : 2 ^ 16 * (v / 2 ^ 16) + (v / 2 ^ 8 % 2 ^ 8) * 2 ^ 8 =
      2 ^ 8 * (2 ^ 8 * (v / 2 ^ 16) + v / 2 ^ 8 % 2 ^ 8) := by ring
  rw [hfac, ← Nat.mul_add_lt_is_or (by omega) _]
  omega

/-- `adjustBrightness` with delta 0 is the identity on `#`-colours with six
lowercase hexadecimal digits. -/
theorem adjustBrightness_zero_lower (s : String)
    (hs : isLowerHexColor s = true) : adjustBrightness s 0 = s := by
  obtain ⟨sdata⟩ := s
  cases sdata with
  | nil => simp [isLowerHexColor] at hs
  | cons c ds =>
      simp only [isLowerHexColor, Bool.and_eq_true, beq_iff_eq,
        List.all_eq_true] at hs
      obtain ⟨⟨hc, hlen⟩, hall⟩ := hs
      subst hc
      have hmem : ∀ x ∈ ds, isLowerHexDigit x = true := fun x hx => hall x hx
      have htw : ds.takeWhile isHexDigitB = ds :=
        List.takeWhile_eq_self_iff.mpr fun x hx =>
          lower_hex_isHexDigit x (hmem x hx)
      have hne : ds ≠ [] := by
        intro h
        subst h
        simp at hlen
      have hparse : jsParseIntHex ds =
          some (ds.foldl (fun a c => 16 * a + hexVal c) 0) := by
        unfold jsParseIntHex
        rw [htw]
        rw [if_neg (by simpa [List.isEmpty_iff] using hne)]
      set v := ds.foldl (fun a c => 16 * a + hexVal c) 0 with hvdef
      have hvlt : v < 16 ^ 6 := by
        have h1 := parseHexAcc_lt ds 0
        rw [hlen] at h1
        simpa using h1
      have h24 : v < 2 ^ 24 := by
        have h1624 : (16 : Nat) ^ 6 = 2 ^ 24 := by norm_num
        omega
      have hfin : toHexFixed 6 v = ds := by
        rw [← hlen, hvdef]
        exact toHexFixed_parse ds hmem
      show adjustBrightness (String.mk ('#' :: ds)) 0 = String.mk ('#' :: ds)
      unfold adjustBrightness
      simp only [hparse]
      rw [recompose_id v h24, pad_hexRep v hvlt]
      simp [hfin]

/-- C5: the claim that `adjustBrightness(c, 0) = c` for every valid hex
colour is false: the recomposition uses `toString(16)`, which renders the
digits in lowercase, so any colour with an uppercase digit changes, e.g.
"#AAAAAA" becomes "#aaaaaa". -/
theorem c5_adjustBrightness_counterexample : ¬ adjustBrightnessClaim :=
  fun h => absurd (h "#AAAAAA" (by decide)) (by decide)

/-- C5 (amended): `adjustBrightness(c, 0) = c` for every valid hex colour
whose six digits are lowercase; uppercase digits are folded to lowercase,
as "#AAAAAA" ↦ "#aaaaaa" shows. -/
theorem c5_adjustBrightness_amended :
    (∀ s, isLowerHexColor s = true → adjustBrightness s 0 = s) ∧
    adjustBrightness "#AAAAAA" 0 = "#aaaaaa" :=
  ⟨adjustBrightness_zero_lower, by decide⟩

/-- Witness for C5 (amended) at the colour "#a1b2c3". -/
theorem c5_adjustBrightness_witness : adjustBrightness "#a1b2c3" 0 = "#a1b2c3" :=
  c5_adjustBrightness_amended.1 "#a1b2c3" (by decide)

/-- Witness for C9 at the spec scenario user "doesnotexist123". -/
theorem c9_github_fallback_witness :
    (handleGitHubEndpoint (some "doesnotexist123") none none
        (.error GHError.notFound) ("English", "Hello")).status = 200 ∧
    (handleGitHubEndpoint (some "doesnotexist123") none none
        (.error GHError.notFound) ("English", "Hello")).contentType =
      "image/svg+xml" ∧
    ∃ x y o, Frag.text x y o (escapeXml "doesnotexist123".data) ∈
      (handleGitHubEndpoint (some "doesnotexist123") none none
        (.error GHError.notFound) ("English", "Hello")).svgBody :=
  c9_github_fallback "doesnotexist123" none none GHError.notFound
    ("English", "Hello") (by decide)

end ImageServer
